import Mathlib

/-!
Verification development for the tool-orchestration workflow of the
sparkathon backend (`app/api/gemini.py`).

The Python source is shallowly embedded: pure helpers become Lean
functions; the stateful LangGraph workflow becomes explicit state
passing over an `MCPState` record, with the two external collaborators
(the Gemini reasoning service and the MCP tool subprocess) modelled as
oracles supplied through an `Env` record.  Exceptions that the source
catches are modelled by the branch the handler takes; exceptions that
escape a node are impossible in the embedded fragment (every `try` in
the orchestrator swallows its errors).
-/

namespace Sparkathon

/-! ## A JSON value model (for `json.loads` / `json.dumps`)

Python `json` values restricted to integer numerals (the source never
relies on float payloads; the parser below covers the integer fragment
of JSON, which is the fragment exercised by the orchestrator).
-/

inductive Json where
  | null : Json
  | bool : Bool → Json
  | num : Int → Json
  | str : String → Json
  | arr : List Json → Json
  | obj : List (String × Json) → Json
  deriving Repr, Inhabited

/-- Python truthiness of a JSON value (`bool(x)`). -/
def pyTruthy : Json → Bool
  | .null => false
  | .bool b => b
  | .num n => n != 0
  | .str s => s != ""
  | .arr xs => !xs.isEmpty
  | .obj kvs => !kvs.isEmpty

/-- Python `dict` lookup on a JSON object's key-value list.  JSON objects
produced by `json.loads` keep the last binding for a duplicated key, so
lookup scans for the last match. -/
def pyDictGet (kvs : List (String × Json)) (k : String) : Option Json :=
  (kvs.filter (fun p => p.1 == k)).getLast?.map (·.2)

/-- Python `len` on a JSON value: defined for sized values, `none` models
the `TypeError` raised otherwise. -/
def pyLen : Json → Option Nat
  | .arr xs => some xs.length
  | .str s => some s.length
  | .obj kvs => some kvs.length
  | _ => none

/-- `needle` is a leading segment of `hay`, on character lists. -/
def listStartsWith : List Char → List Char → Bool
  | _, [] => true
  | [], _ :: _ => false
  | a :: as, b :: bs => a == b && listStartsWith as bs

/-- `needle` occurs as a contiguous segment of `hay`, on character lists. -/
def listInfix : List Char → List Char → Bool
  | hay, needle =>
    listStartsWith hay needle ||
      match hay with
      | [] => false
      | _ :: rest => listInfix rest needle

/-- Python substring test: `needle in hay` for strings. -/
def containsSub (hay needle : String) : Bool :=
  listInfix hay.toList needle.toList

/-- Python `"s" in list` membership test against string elements (Python
`==` between a string and a non-string value is `False`). -/
def jsonListHasStr (xs : List Json) (s : String) : Bool :=
  xs.any fun j => match j with | .str t => t == s | _ => false

def trimLeftList : List Char → List Char
  | c :: rest => if c.isWhitespace then trimLeftList rest else c :: rest
  | [] => []

/-- Python `s.strip()`. -/
def pyStrip (s : String) : String :=
  String.mk ((trimLeftList (trimLeftList s.toList).reverse).reverse)

/-- Python `s.startswith(p)`. -/
def strStartsWith (s p : String) : Bool :=
  listStartsWith s.toList p.toList

/-- Python `s.lower()` (ASCII fragment). -/
def lowerStr (s : String) : String :=
  String.mk (s.toList.map Char.toLower)

def splitCharList (c : Char) : List Char → List (List Char)
  | [] => [[]]
  | x :: rest =>
    let r := splitCharList c rest
    if x == c then [] :: r
    else
      match r with
      | h :: t => (x :: h) :: t
      | [] => [[x]]

/-- Python `s.split(c)` for a one-character separator (the only separators
the source uses). -/
def pySplitChar (c : Char) (s : String) : List String :=
  (splitCharList c s.toList).map String.mk

def lbraceC : Char := Char.ofNat 123
def rbraceC : Char := Char.ofNat 125
def quoteC : Char := Char.ofNat 34
def backslashC : Char := Char.ofNat 92

/-! ### A recursive-descent JSON parser modelling `json.loads`
(integer-numeral fragment; string escapes limited to the common
single-character escapes). -/

def jsonSkipWs : List Char → List Char
  | c :: rest => if c == ' ' || c == '\t' || c == '\n' || c == '\r' then jsonSkipWs rest else c :: rest
  | [] => []

def jsonEscChar (c : Char) : Option Char :=
  if c == quoteC then some quoteC
  else if c == backslashC then some backslashC
  else if c == '/' then some '/'
  else if c == 'n' then some '\n'
  else if c == 't' then some '\t'
  else if c == 'r' then some '\r'
  else if c == 'b' then some (Char.ofNat 8)
  else if c == 'f' then some (Char.ofNat 12)
  else none

def jsonParseStringBody : List Char → Option (String × List Char)
  | [] => none
  | c :: rest =>
    if c == quoteC then some ("", rest)
    else if c == backslashC then
      match rest with
      | [] => none
      | e :: rest2 =>
        match jsonEscChar e with
        | none => none
        | some ch =>
          match jsonParseStringBody rest2 with
          | none => none
          | some (s, rem) => some (String.mk (ch :: s.toList), rem)
    else
      match jsonParseStringBody rest with
      | none => none
      | some (s, rem) => some (String.mk (c :: s.toList), rem)

/-- Collect a maximal run of leading digits, returning its value. -/
def jsonTakeDigits (acc : Nat) : List Char → (Nat × List Char × Bool)
  | c :: rest =>
    if c.isDigit then
      let r := jsonTakeDigits (acc * 10 + (c.toNat - 48)) rest
      (r.1, r.2.1, true)
    else (acc, c :: rest, false)
  | [] => (acc, [], false)

mutual

def jsonParseVal (fuel : Nat) (cs : List Char) : Option (Json × List Char) :=
  match fuel with
  | 0 => none
  | fuel + 1 =>
    match jsonSkipWs cs with
    | [] => none
    | c :: rest =>
      if c == quoteC then
        match jsonParseStringBody rest with
        | some (s, rem) => some (.str s, rem)
        | none => none
      else if c == lbraceC then
        jsonParseObj fuel (jsonSkipWs rest) true
      else if c == '[' then
        jsonParseArr fuel (jsonSkipWs rest) true
      else if c == 't' then
        match rest with
        | 'r' :: 'u' :: 'e' :: rem => some (.bool true, rem)
        | _ => none
      else if c == 'f' then
        match rest with
        | 'a' :: 'l' :: 's' :: 'e' :: rem => some (.bool false, rem)
        | _ => none
      else if c == 'n' then
        match rest with
        | 'u' :: 'l' :: 'l' :: rem => some (.null, rem)
        | _ => none
      else if c == '-' then
        match jsonTakeDigits 0 rest with
        | (n, rem, true) => some (.num (-(n : Int)), rem)
        | _ => none
      else if c.isDigit then
        match jsonTakeDigits (c.toNat - 48) rest with
        | (n, rem, _) => some (.num (n : Int), rem)
      else none

def jsonParseObj (fuel : Nat) (cs : List Char) (first : Bool) : Option (Json × List Char) :=
  match fuel with
  | 0 => none
  | fuel + 1 =>
    match jsonSkipWs cs with
    | [] => none
    | c :: rest =>
      if c == rbraceC && first then some (.obj [], rest)
      else if c == quoteC then
        match jsonParseStringBody rest with
        | none => none
        | some (k, rem) =>
          match jsonSkipWs rem with
          | ':' :: rem2 =>
            match jsonParseVal fuel rem2 with
            | none => none
            | some (v, rem3) =>
              match jsonSkipWs rem3 with
              | ',' :: rem4 =>
                match jsonParseObj fuel rem4 false with
                | some (.obj kvs, rem5) => some (.obj ((k, v) :: kvs), rem5)
                | _ => none
              | d :: rem4 =>
                if d == rbraceC then some (.obj [(k, v)], rem4) else none
              | [] => none
          | _ => none
      else none

def jsonParseArr (fuel : Nat) (cs : List Char) (first : Bool) : Option (Json × List Char) :=
  match fuel with
  | 0 => none
  | fuel + 1 =>
    match jsonSkipWs cs with
    | [] => none
    | c :: rest =>
      if c == ']' && first then some (.arr [], rest)
      else
        match jsonParseVal fuel (c :: rest) with
        | none => none
        | some (v, rem) =>
          match jsonSkipWs rem with
          | ',' :: rem2 =>
            match jsonParseArr fuel rem2 false with
            | some (.arr xs, rem3) => some (.arr (v :: xs), rem3)
            | _ => none
          | ']' :: rem2 => some (.arr [v], rem2)
          | _ => none

end

/-- `json.loads`: parse a complete JSON document, requiring only trailing
whitespace after the value; `none` models `json.JSONDecodeError`. -/
def jsonParse (s : String) : Option Json :=
  match jsonParseVal (s.length + 1) s.toList with
  | some (v, rem) => if jsonSkipWs rem == [] then some v else none
  | none => none

/-! ## Python string-splitting helpers -/

/-- Python `s.split(sep, 1)[1]`: everything after the first occurrence of
the one-character separator; `none` models the `IndexError` when `sep`
does not occur. -/
def pySplitRest (sep : Char) (s : String) : Option String :=
  match pySplitChar sep s with
  | [] => none
  | [_] => none
  | _ :: rest => some (String.intercalate (String.mk [sep]) rest)

/-- Python `s.split(sep)[0]`: everything before the first occurrence of
`sep` (the whole string when `sep` does not occur). -/
def pySplitHead (sep : Char) (s : String) : String :=
  ((pySplitChar sep s).headD s)

/-- Python `s.rsplit(sep, 1)[0]`: everything before the last occurrence of
`sep` (the whole string when `sep` does not occur). -/
def pyRSplitHead (sep : Char) (s : String) : String :=
  match pySplitChar sep s with
  | [] => s
  | [x] => x
  | parts => String.intercalate (String.mk [sep]) parts.dropLast

/-! ## `_extract_tool_call` (gemini.py lines 766-790)

Scans the lines of the assistant reply for one of the form
`EXECUTE: tool_name(json-arguments)`.  Every exception raised while
handling a line is caught by the source's `except Exception` and the
scan moves on to the next line; an argument payload that fails
`json.loads` is replaced by the empty mapping.  The embedding is a total
`Option`-valued function: the source cannot raise. -/

structure ToolCall where
  tool_name : String
  arguments : Json
  deriving Repr, Inhabited

/-- One iteration of the `for line in lines` loop of `_extract_tool_call`:
the attempt to extract a call from a single line. -/
def extractToolCallLine (rawLine : String) : Option ToolCall :=
  let line := pyStrip rawLine
  if strStartsWith line "EXECUTE:" then
    match pySplitRest ':' line with
    | none => none
    | some afterColon =>
      let tool_part := pyStrip afterColon
      if containsSub tool_part "(" && containsSub tool_part ")" then
        let tool_name := pyStrip (pySplitHead '(' tool_part)
        let params_str := pyRSplitHead ')' ((pySplitRest '(' tool_part).getD "")
        let params :=
          if pyStrip params_str != "" then (jsonParse params_str).getD (Json.obj [])
          else Json.obj []
        some { tool_name := tool_name, arguments := params }
      else none
  else none

def extractFromLines : List String → Option ToolCall
  | [] => none
  | line :: rest =>
    match extractToolCallLine line with
    | some tc => some tc
    | none => extractFromLines rest

/-- `_extract_tool_call(response_text)`. -/
def extract_tool_call (response_text : String) : Option ToolCall :=
  extractFromLines (pySplitChar '\n' response_text)

/-! ## The MCP tool gateway (`MCPClient`, gemini.py lines 71-207)

The subprocess is modelled by an optional handle carrying a pid and a
return code; the environment supplies the pid a fresh spawn would get,
whether the write to stdin succeeds, and what `readline` yields. -/

structure ProcHandle where
  pid : Nat
  returncode : Option Int
  deriving Repr, DecidableEq

structure MCPClientState where
  process : Option ProcHandle
  request_id : Nat
  deriving Repr, DecidableEq

inductive ReadOut where
  | closed : ReadOut
  | line : String → ReadOut
  deriving Repr

structure GatewayEnv where
  freshPid : Nat
  writeOk : Bool
  readOut : ReadOut

/-- `_ensure_server_running` (lines 82-93): spawn a subprocess when there is
no handle or the held process has exited. -/
def ensure_server_running (env : GatewayEnv) (st : MCPClientState) : MCPClientState :=
  match st.process with
  | none => { st with process := some { pid := env.freshPid, returncode := none } }
  | some p =>
    if p.returncode != none then
      { st with process := some { pid := env.freshPid, returncode := none } }
    else st

/-- `send_request` (lines 95-129).  Returns the parsed `result` field on
success; any failure (write error, closed stream, JSON decode error, a
top-level `error` field, or a non-mapping response) terminates the
subprocess and clears the handle before re-raising (`Except.error`). -/
def send_request (env : GatewayEnv) (st0 : MCPClientState) :
    Except String Json × MCPClientState :=
  let st1 := ensure_server_running env st0
  let st := { st1 with request_id := st1.request_id + 1 }
  let fail := fun (msg : String) =>
    ((Except.error msg : Except String Json), { st with process := none })
  if !env.writeOk then fail "write to MCP server failed"
  else
    match env.readOut with
    | .closed => fail "No response from MCP server"
    | .line s =>
      match jsonParse (pyStrip s) with
      | none => fail "JSONDecodeError"
      | some v =>
        match v with
        | .obj kvs =>
          if (pyDictGet kvs "error").isSome then fail "MCP Error"
          else (Except.ok ((pyDictGet kvs "result").getD (Json.obj [])), st)
        | .arr xs =>
          -- Python `"error" in list` then `.get` raising AttributeError
          if jsonListHasStr xs "error" then fail "MCP Error"
          else fail "AttributeError"
        | .str t =>
          -- Python `"error" in str` then `.get` raising AttributeError
          if containsSub t "error" then fail "MCP Error"
          else fail "AttributeError"
        | _ => fail "TypeError"

/-! ## System context (`get_system_context` / `get_full_system_context`,
gemini.py lines 148-201)

The context dictionary is modelled as a record: one JSON value and one
count per tracked collection, the `context_loaded` flag, and the `error`
key that `get_full_system_context` adds when a non-inner exception
escapes the per-collection parsing.  The constant `available_operations`
list is carried by every context dictionary the source builds and never
mutated, so it is modelled as the constant `availableOperations`. -/

inductive CKey where
  | stores | main_stores | orders
  deriving Repr, DecidableEq

structure SystemContext where
  stores : Json := .arr []
  main_stores : Json := .arr []
  orders : Json := .arr []
  count_stores : Nat := 0
  count_main_stores : Nat := 0
  count_orders : Nat := 0
  context_loaded : Bool := false
  errorField : Option String := none
  deriving Repr, Inhabited

def availableOperations : List String :=
  ["get_all_stores", "get_all_main_stores", "get_all_orders",
   "create_store", "update_store", "delete_store",
   "create_main_store", "update_main_store", "delete_main_store",
   "create_order", "update_order", "delete_order"]

/-- `get_system_context`: the fixed skeleton (empty collections, zero
counts, `context_loaded = False`). -/
def get_system_context : SystemContext := {}

/-- Outcome of handling one `(result, key)` pair inside the `for` loop of
`get_full_system_context`:
* `skip` — the `if "content" in result and result["content"]` guard was
  false, or an exception of the inner `except (JSONDecodeError, KeyError,
  IndexError)` class was raised (collection left at its prior value);
* `setVal v n` — `context[key] = v` and `context["total_counts"][key] = n`;
* `outerFail` — an exception not caught by the inner handler (e.g.
  `TypeError`/`AttributeError` from indexing or `.get` on an unexpected
  shape), which aborts the loop and is caught by the outer handler. -/
inductive CollStep where
  | skip : CollStep
  | setVal : Json → Nat → CollStep
  | outerFail : String → CollStep
  deriving Repr

/-- The body of the per-collection loop of `get_full_system_context` for
one `(result, key)` pair, with Python indexing/`in`/`.get` semantics made
explicit. -/
def loadCollection (result : Json) (key : CKey) : CollStep :=
  match result with
  | .obj kvs =>
    match pyDictGet kvs "content" with
    | none => .skip
    | some contentVal =>
      if !pyTruthy contentVal then .skip
      else
        match contentVal with
        | .arr (el :: _) =>
          match el with
          | .obj ekvs =>
            match pyDictGet ekvs "text" with
            | none => .skip            -- KeyError "text": inner handler
            | some (.str t) =>
              match jsonParse t with
              | none => .skip          -- JSONDecodeError: inner handler
              | some (.obj dkvs) =>
                let field := match key with | .orders => "orders" | _ => "stores"
                let entities := (pyDictGet dkvs field).getD (.arr [])
                match pyLen entities with
                | some n => .setVal entities n
                | none => .outerFail "TypeError: len"  -- len() on unsized
              | some _ => .outerFail "AttributeError"  -- .get on non-dict
            | some _ => .outerFail "TypeError"  -- json.loads on a non-string
          | _ => .outerFail "TypeError"         -- el["text"] on a non-dict
        | .arr [] => .skip                      -- unreachable: not truthy
        | .obj _ => .skip                       -- content[0] KeyError: inner
        | .str _ => .outerFail "TypeError"      -- char["text"]
        | _ => .outerFail "TypeError"           -- indexing a number/bool
  | .arr xs =>
    if jsonListHasStr xs "content" then .outerFail "TypeError" else .skip
  | .str s =>
    if containsSub s "content" then .outerFail "TypeError" else .skip
  | _ => .outerFail "TypeError"                  -- `"content" in result`

def setColl (ctx : SystemContext) (key : CKey) (v : Json) (n : Nat) : SystemContext :=
  match key with
  | .stores => { ctx with stores := v, count_stores := n }
  | .main_stores => { ctx with main_stores := v, count_main_stores := n }
  | .orders => { ctx with orders := v, count_orders := n }

/-- The `for result, key in results` loop; an `outerFail` step stops the
loop, and the outer `except Exception` sets `context["error"]`. -/
def processCollections (ctx : SystemContext) : List (Json × CKey) → SystemContext
  | [] => ctx
  | (r, k) :: rest =>
    match loadCollection r k with
    | .skip => processCollections ctx rest
    | .setVal v n => processCollections (setColl ctx k v n) rest
    | .outerFail msg => { ctx with errorField := some msg }

/-- `get_full_system_context`: starts from the skeleton, sets
`context_loaded = True` before any parsing, runs the three already
completed `tools/call` results through the parsing loop. -/
def get_full_system_context (res : CKey → Json) : SystemContext :=
  let ctx0 := { get_system_context with context_loaded := true }
  processCollections ctx0
    [(res .stores, .stores), (res .main_stores, .main_stores), (res .orders, .orders)]

/-! ## The LangGraph workflow (`LangGraphMCPExecutor`, gemini.py lines 241-819)

State (`MCPState`), the five node functions, the two routing functions and
the compiled graph
`initialize → analyze_and_plan → (execute_tool → update_context)* → finalize`.
The Gemini reasoning service and the per-iteration tool results come from
an `Env` oracle; events sent through the WebSocket manager are collected
into a trace.  The `timestamp` field of an executed-tool record and the
message `additional_kwargs` are omitted: nothing in the workflow reads
them back. -/

structure ToolInfo where
  name : String
  description : String
  deriving Repr, DecidableEq

inductive Msg where
  | human : String → Msg
  | ai : String → Msg
  | toolMsg : String → Msg
  deriving Repr

def Msg.content : Msg → String
  | .human s => s
  | .ai s => s
  | .toolMsg s => s

structure ExecRecord where
  iteration : Nat
  tool_name : String
  arguments : Json
  result : String
  success : Bool
  deriving Repr, Inhabited

structure MCPState where
  messages : List Msg
  system_context : Option SystemContext  -- `none` models the initial `{}` dict
  available_tools : List ToolInfo
  current_request : String
  iteration : Nat
  max_iterations : Nat
  executed_tools : List ExecRecord
  session_id : String
  deriving Repr

/-- The five node names of the compiled graph (the source uses the strings
"initialize", "analyze_and_plan", "execute_tool", "update_context",
"finalize"). -/
inductive NodeName where
  | initNode | analyzePlan | execTool | updCtx | finalNode
  deriving Repr, DecidableEq

/-- The typed WebSocket events the executor emits, with the payload fields
the claims refer to. -/
inductive Event where
  | workflowStart : String → Nat → Event                -- langgraph_workflow_start
  | workflowNode : NodeName → Option Nat → Event        -- workflow_node (initialize carries no iteration)
  | systemContextEv : Nat → Event                       -- system_context
  | iterationStart : Nat → Nat → Event                  -- iteration_start (iteration, max_iterations)
  | geminiAnalysis : Nat → String → Event               -- gemini_analysis
  | toolExecStart : Nat → String → Event                -- tool_execution_start
  | toolExecResult : Nat → String → Bool → String → Event -- tool_execution_result
  | systemUpdate : Nat → String → Event                 -- system_update
  | contextUpdateSkipped : Nat → String → Event         -- context_update_skipped
  | errorEv : Option Nat → String → Event               -- error
  | feedbackLoopComplete : Nat → Nat → Nat → String → Event
      -- feedback_loop_complete (total_iterations, tools_executed, successful_tools, summary)
  | workflowComplete : Nat → Nat → Nat → Event
      -- langgraph_workflow_complete (total_iterations, tools_executed, successful_tools)
  deriving Repr

/-- Outcome of one call to the Gemini model: generated text, or a raised
exception (caught at every call site). -/
inductive GemOut where
  | text : String → GemOut
  | exn : String → GemOut

/-- Oracle for the two external collaborators during one run: the
discovered tool catalog, the Gemini reply per iteration (given the built
prompt), the `_arun` result string of the single tool execution of an
iteration, the three `tools/call` results a context refresh at that
iteration would see, and the summary-generation outcome. -/
structure Env where
  tools : List ToolInfo
  gemini : Nat → String → GemOut
  toolResult : Nat → String
  callResult : Nat → CKey → Json
  summaryOut : String → GemOut

def lastMessageContent (st : MCPState) : String :=
  ((st.messages.getLast?).map Msg.content).getD ""

/-- `_handle_error`: append the error text as an assistant message and
emit an `error` event. -/
def handle_error (st : MCPState) (msg : String) : MCPState × List Event :=
  ({ st with messages := st.messages ++ [.ai msg] }, [.errorEv (some st.iteration) msg])

def ctxLoadedFlag (st : MCPState) : Bool :=
  match st.system_context with
  | some c => c.context_loaded
  | none => false

def ctxOps (st : MCPState) : List String :=
  match st.system_context with
  | some _ => availableOperations
  | none => []

/-- Python `"\n".join`. -/
def joinNL : List String → String
  | [] => ""
  | [a] => a
  | a :: b :: r => a ++ "\n" ++ joinNL (b :: r)

/-- Rendering of an executed-tool record for prompt text (the exact
`json.dumps` layout is abstracted; the claims concern which records
appear and in which order). -/
def dumpRecord (r : ExecRecord) : String :=
  "(iteration " ++ toString r.iteration ++ ": " ++ r.tool_name ++
    " -> success=" ++ toString r.success ++ ", result=" ++ r.result ++ ")"

def dumpRecords (l : List ExecRecord) : String :=
  joinNL (l.map dumpRecord)

/-- Rendering of the context snapshot for prompt text (layout abstracted). -/
def dumpContextOpt : Option SystemContext → String
  | none => "(no context)"
  | some c =>
    "stores=" ++ toString c.count_stores ++ ", main_stores=" ++
      toString c.count_main_stores ++ ", orders=" ++ toString c.count_orders

/-- `_create_analysis_prompt` (lines 705-764), as the `prompt_parts` list
the source accumulates before `"\n".join(prompt_parts)`. -/
def createAnalysisPromptParts (st : MCPState) : List String :=
  ["ITERATION " ++ toString st.iteration ++ " - MCP STORE MANAGEMENT",
   "",
   "You are executing store management operations.",
   "Analyze the current request and decide the next action.",
   "",
   "AVAILABLE MCP TOOLS:"]
  ++ st.available_tools.map (fun t => "- " ++ t.name ++ ": " ++ t.description)
  ++ (if ctxLoadedFlag st then
        ["", "CURRENT SYSTEM STATE:", dumpContextOpt st.system_context, ""]
      else
        ["",
         "SYSTEM CONTEXT: Not loaded yet. Use get_all_stores, get_all_main_stores, or get_all_orders tools if you need current data.",
         "Available operations: " ++ String.intercalate ", " (ctxOps st),
         ""])
  ++ (if st.executed_tools.isEmpty then []
      else
        ["PREVIOUSLY EXECUTED TOOLS:",
         dumpRecords (st.executed_tools.drop (st.executed_tools.length - 3)),
         ""])
  ++ ["CURRENT REQUEST: " ++ st.current_request,
      "",
      "INSTRUCTIONS:",
      "1. Analyze the current request",
      "2. If you need current system data, first call get_all_stores, get_all_main_stores, or get_all_orders",
      "3. If you need to execute a tool, respond with exactly ONE tool call:",
      "   EXECUTE: tool_name(\x7b\x22param1\x22: \x22value1\x22, \x22param2\x22: \x22value2\x22\x7d)",
      "4. If no more tools are needed, respond with \x27COMPLETE: [explanation]\x27",
      "5. Always explain your reasoning before the tool call",
      "6. Don\x27t assume system state - call tools to get current data when needed",
      "",
      "Your response:"]

def createAnalysisPrompt (st : MCPState) : String :=
  joinNL (createAnalysisPromptParts st)

/-- The summary prompt of `_generate_summary` (layout abstracted from the
source f-string). -/
def summaryPrompt (st : MCPState) : String :=
  "Please provide a comprehensive summary of the LangGraph MCP workflow execution.\n"
  ++ "INITIAL REQUEST: " ++ st.current_request ++ "\n"
  ++ "EXECUTED TOOLS:\n" ++ dumpRecords st.executed_tools ++ "\n"
  ++ "FINAL SYSTEM STATE:\n" ++ dumpContextOpt st.system_context

/-- `_initialize_node` (lines 349-383): load the cheap context skeleton,
reset the iteration counter, emit the node and summary events, append the
acknowledgement message. -/
def initialize_node (env : Env) (st : MCPState) : MCPState × List Event :=
  let st1 := { st with system_context := some get_system_context, iteration := 0 }
  let st2 := { st1 with messages := st1.messages ++
    [.ai ("Workflow initialized. System context loaded with " ++
      toString env.tools.length ++ " tools available.")] }
  (st2, [.workflowNode .initNode none, .systemContextEv st.available_tools.length])

/-- `_analyze_and_plan_node` (lines 385-442): increment the iteration
counter, build the analysis prompt, ask Gemini; a Gemini failure is
converted by `_handle_error` into an error message + event. -/
def analyze_and_plan_node (env : Env) (st : MCPState) : MCPState × List Event :=
  let st1 := { st with iteration := st.iteration + 1 }
  let evs : List Event :=
    [.iterationStart st1.iteration st1.max_iterations,
     .workflowNode .analyzePlan (some st1.iteration)]
  match env.gemini st1.iteration (createAnalysisPrompt st1) with
  | .text s =>
    let analysis_content := if s == "" then "No analysis generated" else s
    ({ st1 with messages := st1.messages ++ [.ai analysis_content] },
     evs ++ [.geminiAnalysis st1.iteration analysis_content])
  | .exn e =>
    let r := handle_error st1 ("Analysis error: " ++ e)
    (r.1, evs ++ r.2)

/-- `_execute_single_tool` (lines 468-529).  When the tool is found the
record and tool message are appended before the result event is sent;
building that event re-parses a result that starts with a brace, and a
parse failure there raises inside the `try`, so the record survives and
`_handle_error` runs instead of the result event.  A non-mapping
`arguments` value raises `TypeError` at the `**` unpacking. -/
def execute_single_tool (env : Env) (st : MCPState) (tc : ToolCall) :
    MCPState × List Event :=
  let evStart : Event := .toolExecStart st.iteration tc.tool_name
  match env.tools.find? (fun t => t.name == tc.tool_name) with
  | some _ =>
    match tc.arguments with
    | .obj _ =>
      let result := env.toolResult st.iteration
      let success := !(containsSub (lowerStr result) "error")
      let record : ExecRecord :=
        { iteration := st.iteration, tool_name := tc.tool_name,
          arguments := tc.arguments, result := result, success := success }
      let st1 := { st with executed_tools := st.executed_tools ++ [record],
                           messages := st.messages ++ [.toolMsg result] }
      if strStartsWith result "\x7b" && (jsonParse result).isNone then
        let r := handle_error st1 "Tool execution error: JSONDecodeError"
        (r.1, evStart :: r.2)
      else
        (st1, [evStart, .toolExecResult st.iteration tc.tool_name success result])
    | _ =>
      let r := handle_error st "Tool execution error: TypeError"
      (r.1, evStart :: r.2)
  | none =>
    let r := handle_error st ("Tool " ++ tc.tool_name ++ " not found")
    (r.1, evStart :: r.2)

/-- `_execute_tool_node` (lines 444-466): extract a tool call from the last
message; when none is found the state is returned unchanged. -/
def execute_tool_node (env : Env) (st : MCPState) : MCPState × List Event :=
  let ev0 : Event := .workflowNode .execTool (some st.iteration)
  match extract_tool_call (lastMessageContent st) with
  | none => (st, [ev0])
  | some tc =>
    let r := execute_single_tool env st tc
    (r.1, ev0 :: r.2)

def contextLoadingTools : List String :=
  ["get_all_stores", "get_all_main_stores", "get_all_orders"]

def dataModifyingTools : List String :=
  ["create_store", "update_store", "delete_store",
   "create_main_store", "update_main_store", "delete_main_store",
   "create_order", "update_order", "delete_order"]

/-- `_update_context_node` (lines 543-638): refresh the full context when
the most recent executed tool is a context-loading one, or a
data-modifying one while the context is already loaded. -/
def update_context_node (env : Env) (st : MCPState) : MCPState × List Event :=
  let ev0 : Event := .workflowNode .updCtx (some st.iteration)
  match st.executed_tools.getLast? with
  | some lastExec =>
    if contextLoadingTools.contains lastExec.tool_name then
      let updated := get_full_system_context (env.callResult st.iteration)
      let reason := "Context loaded via " ++ lastExec.tool_name
      ({ st with system_context := some updated,
                 messages := st.messages ++ [.ai ("System context updated: " ++ reason)] },
       [ev0, .systemUpdate st.iteration reason])
    else if dataModifyingTools.contains lastExec.tool_name && ctxLoadedFlag st then
      let updated := get_full_system_context (env.callResult st.iteration)
      let reason := "Context refreshed after " ++ lastExec.tool_name
      ({ st with system_context := some updated,
                 messages := st.messages ++ [.ai ("System context updated: " ++ reason)] },
       [ev0, .systemUpdate st.iteration reason])
    else
      let reason := "No context update needed for " ++ lastExec.tool_name
      ({ st with messages := st.messages ++ [.ai ("System context update skipped: " ++ reason)] },
       [ev0, .contextUpdateSkipped st.iteration reason])
  | none =>
    ({ st with messages := st.messages ++ [.ai "System context update skipped: "] },
     [ev0, .contextUpdateSkipped st.iteration ""])

def succCount (l : List ExecRecord) : Nat :=
  (l.filter (·.success)).length

/-- `_finalize_node` (lines 640-676): generate the summary (failures yield
an error string, never an exception), append it and emit
`feedback_loop_complete` with the aggregate counts. -/
def finalize_node (env : Env) (st : MCPState) : MCPState × List Event :=
  let summary :=
    match env.summaryOut (summaryPrompt st) with
    | .text s => if s == "" then "Summary generation failed" else s
    | .exn e => "Error generating summary: " ++ e
  ({ st with messages := st.messages ++ [.ai summary] },
   [.workflowNode .finalNode (some st.iteration),
    .feedbackLoopComplete st.iteration st.executed_tools.length
      (succCount st.executed_tools) summary])

/-- `_should_execute_tool` (lines 678-691): routing after
`analyze_and_plan`. -/
def should_execute_tool (st : MCPState) : String :=
  if st.max_iterations ≤ st.iteration then "finish"
  else
    let content := lastMessageContent st
    if containsSub content "EXECUTE:" then "execute"
    else if containsSub content "COMPLETE:" then "finish"
    else "execute"

/-- `_should_continue` (lines 693-703): routing after `update_context`. -/
def should_continue (st : MCPState) : String :=
  if st.max_iterations ≤ st.iteration then "finish"
  else
    match st.executed_tools.getLast? with
    | some lastExec => if lastExec.success then "continue" else "finish"
    | none => "finish"

/-- One round of the compiled graph starting at `analyze_and_plan`:
either the round ends the run (`finalize` already applied), or the
conditional edge after `update_context` loops back. -/
inductive RoundOut where
  | stop : MCPState → List Event → RoundOut
  | next : MCPState → List Event → RoundOut

def runRound (env : Env) (st : MCPState) : RoundOut :=
  let a := analyze_and_plan_node env st
  if should_execute_tool a.1 == "finish" then
    let f := finalize_node env a.1
    .stop f.1 (a.2 ++ f.2)
  else
    let e := execute_tool_node env a.1
    let u := update_context_node env e.1
    if should_continue u.1 == "continue" then
      .next u.1 (a.2 ++ e.2 ++ u.2)
    else
      let f := finalize_node env u.1
      .stop f.1 (a.2 ++ e.2 ++ u.2 ++ f.2)

/-- The graph loop from `analyze_and_plan`, driven by fuel.  The fuel is
an artifact of the embedding: whenever `fuel ≥ max_iterations - iteration`
the zero-fuel truncation branch is unreachable, because the `continue`
edge requires `iteration < max_iterations` after the increment (this side
condition is carried by every theorem below). -/
def loopGo (env : Env) : Nat → MCPState → MCPState × List Event
  | 0, st =>
    match runRound env st with
    | .stop st' evs => (st', evs)
    | .next st' evs => (st', evs)
  | fuel + 1, st =>
    match runRound env st with
    | .stop st' evs => (st', evs)
    | .next st' evs =>
      let r := loopGo env fuel st'
      (r.1, evs ++ r.2)

/-- The `initial_state` dict of `execute_feedback_loop` (lines 304-316). -/
def initialState (env : Env) (request : String) (maxIter : Nat) : MCPState :=
  { messages := [.human request],
    system_context := none,
    available_tools := env.tools,
    current_request := request,
    iteration := 0,
    max_iterations := maxIter,
    executed_tools := [],
    session_id := "session" }

/-- `execute_feedback_loop` (lines 286-343): emit the workflow-start
event, run the graph (`initialize`, then the loop), then emit
`langgraph_workflow_complete` with the aggregate counts of the final
state. -/
def execute_feedback_loop (env : Env) (request : String) (maxIter : Nat) :
    MCPState × List Event :=
  let i := initialize_node env (initialState env request maxIter)
  let r := loopGo env maxIter i.1
  (r.1,
   .workflowStart request maxIter ::
     (i.2 ++ r.2 ++
      [.workflowComplete r.1.iteration r.1.executed_tools.length
        (succCount r.1.executed_tools)]))

/-! ## Trace observations -/

def isAnalyzeVisit : Event → Bool
  | .workflowNode .analyzePlan _ => true
  | _ => false

def isUpdateVisit : Event → Bool
  | .workflowNode .updCtx _ => true
  | _ => false

def isExecVisit : Event → Bool
  | .workflowNode .execTool _ => true
  | _ => false

def isFlc : Event → Bool
  | .feedbackLoopComplete _ _ _ _ => true
  | _ => false

/-- Number of `analyze_and_plan` node events in a trace. -/
def analyzeCt (evs : List Event) : Nat := evs.countP isAnalyzeVisit

/-- Number of `update_context` node events in a trace. -/
def updateCt (evs : List Event) : Nat := evs.countP isUpdateVisit

/-- Number of `execute_tool` node events in a trace. -/
def execCt (evs : List Event) : Nat := evs.countP isExecVisit

/-- Number of `feedback_loop_complete` events in a trace. -/
def flcCt (evs : List Event) : Nat := evs.countP isFlc

def nodeIterOf : Event → Option Nat
  | .workflowNode _ (some i) => some i
  | _ => none

/-- The iteration values carried by the `workflow_node` events, in
emission order. -/
def nodeIters (evs : List Event) : List Nat := evs.filterMap nodeIterOf

def execIterOf : Event → Option Nat
  | .workflowNode .execTool (some i) => some i
  | _ => none

/-- The iteration values at each entry to `execute_tool`. -/
def execIters (evs : List Event) : List Nat := evs.filterMap execIterOf

def flcTotalOf : Event → Option Nat
  | .feedbackLoopComplete t _ _ _ => some t
  | _ => none

/-- The `total_iterations` payloads of the `feedback_loop_complete`
events of a trace. -/
def flcTotals (evs : List Event) : List Nat := evs.filterMap flcTotalOf

def flcSuccOf : Event → Option Nat
  | .feedbackLoopComplete _ _ s _ => some s
  | _ => none

/-- The `successful_tools` payloads of the `feedback_loop_complete`
events of a trace. -/
def flcSuccs (evs : List Event) : List Nat := evs.filterMap flcSuccOf

def wfcTotalOf : Event → Option Nat
  | .workflowComplete t _ _ => some t
  | _ => none

/-- The `total_iterations` payloads of the `langgraph_workflow_complete`
events of a trace. -/
def wfcTotals (evs : List Event) : List Nat := evs.filterMap wfcTotalOf

/-! ## The WebSocket command loop (`websocket_feedback_loop`,
gemini.py lines 826-875)

One received command, already through `json.loads`, and what the handler
does with it.  (`json.loads` failure and non-dict payloads raise into the
outer `except`, which reports a WebSocket error and disconnects — the
`outerError` outcome.) -/

inductive WsOutcome where
  | errorContinue : String → WsOutcome   -- error event sent, loop continues, no executor created
  | runFeedback : Json → Json → WsOutcome -- executor created, run started (request, max_iterations)
  | stopBreak : WsOutcome                -- stop acknowledged, loop breaks
  | silentContinue : WsOutcome           -- unknown action: nothing sent, loop continues
  | outerError : WsOutcome               -- exception escapes to the outer handler

/-- Python `request_data.get("action") == "<literal>"` (equality with a
string literal is `False` for a missing key or a non-string value). -/
def wsActionIs (kvs : List (String × Json)) (s : String) : Bool :=
  match pyDictGet kvs "action" with
  | some (.str a) => a == s
  | _ => false

def wsHandleCommand (j : Json) : WsOutcome :=
  match j with
  | .obj kvs =>
    if wsActionIs kvs "start_feedback_loop" then
      let initial_request := (pyDictGet kvs "request").getD (Json.str "")
      let max_iterations := (pyDictGet kvs "max_iterations").getD (Json.num 10)
      if !pyTruthy initial_request then .errorContinue "Request is required"
      else .runFeedback initial_request max_iterations
    else if wsActionIs kvs "stop_feedback_loop" then
      .stopBreak
    else .silentContinue
  | _ => .outerError

/-! ## Concrete scenarios used by witnesses and counterexamples -/

def toolGetAllStores : ToolInfo :=
  { name := "get_all_stores", description := "Get all stores" }

/-- A run whose single tool execution fails (the result text carries
"Error"). -/
def envFail : Env :=
  { tools := [toolGetAllStores],
    gemini := fun i _ =>
      if i == 1 then .text "EXECUTE: get_all_stores(\x7b\x7d)" else .text "COMPLETE: done",
    toolResult := fun _ => "Error: connection refused",
    callResult := fun _ _ => Json.obj [],
    summaryOut := fun _ => .text "run summary" }

/-- The executed-tool record `envFail` produces. -/
def recFail : ExecRecord :=
  { iteration := 1, tool_name := "get_all_stores", arguments := Json.obj [],
    result := "Error: connection refused", success := false }

/-- A run whose first iteration executes a tool successfully and whose
second analysis reply contains no `EXECUTE:` line (and no `COMPLETE:`),
so the second `execute_tool` visit performs no execution. -/
def envSkip : Env :=
  { tools := [toolGetAllStores],
    gemini := fun i _ =>
      if i == 1 then .text "EXECUTE: get_all_stores(\x7b\x7d)"
      else if i == 2 then .text "Let me think about the next step."
      else .text "COMPLETE: done",
    toolResult := fun _ => "All stores listed successfully",
    callResult := fun _ _ => Json.obj [],
    summaryOut := fun _ => .text "run summary" }

/-- A run environment whose tool result text mentions "Error" although the
operation succeeded. -/
def envErrText : Env :=
  { tools := [toolGetAllStores],
    gemini := fun _ _ => .text "COMPLETE: done",
    toolResult := fun _ => "Created item: Error Code Scanner",
    callResult := fun _ _ => Json.obj [],
    summaryOut := fun _ => .text "run summary" }

def tcSample : ToolCall :=
  { tool_name := "get_all_stores", arguments := Json.obj [] }

def recSample (i : Nat) : ExecRecord :=
  { iteration := i, tool_name := "get_all_stores", arguments := Json.obj [],
    result := "listed", success := true }

/-- A mid-run state: one iteration done, no executions yet, last message
free of `EXECUTE:` markers. -/
def stBase : MCPState :=
  { messages := [.human "list all stores", .ai "thinking about it"],
    system_context := some get_system_context,
    available_tools := [toolGetAllStores],
    current_request := "list all stores",
    iteration := 1,
    max_iterations := 5,
    executed_tools := [],
    session_id := "s" }

/-- A state whose executed-tool log holds four records. -/
def stFour : MCPState :=
  { stBase with executed_tools := [recSample 1, recSample 2, recSample 3, recSample 4] }

def envGwClosed : GatewayEnv :=
  { freshPid := 7, writeOk := true, readOut := .closed }

def gwStRunning : MCPClientState :=
  { process := some { pid := 3, returncode := none }, request_id := 0 }

/-! # Theorems -/

/-! ## Routing-function facts -/

theorem should_execute_tool_ne_finish {st : MCPState}
    (h : should_execute_tool st ≠ "finish") : st.iteration < st.max_iterations := by
  unfold should_execute_tool at h
  by_cases hm : st.max_iterations ≤ st.iteration
  · rw [if_pos hm] at h
    exact absurd rfl h
  · omega

theorem should_continue_eq_continue {st : MCPState}
    (h : should_continue st = "continue") :
    st.iteration < st.max_iterations ∧
      ∃ r, st.executed_tools.getLast? = some r ∧ r.success = true := by
  unfold should_continue at h
  split at h
  case isTrue hm => exact absurd h (by decide)
  case isFalse hm =>
    split at h
    next lastExec heq =>
      split at h
      next hs => exact ⟨by omega, lastExec, heq, hs⟩
      next hs => exact absurd h (by decide)
    next heq => exact absurd h (by decide)

theorem length_le_one_getLast {α : Type _} {l : List α} {r : α}
    (h1 : l.length ≤ 1) (h2 : l.getLast? = some r) : l = [r] := by
  match l with
  | [] => simp at h2
  | [a] => simp at h2; rw [h2]
  | a :: b :: t => simp at h1

/-! ## Per-node characterizations: how each node function changes the
counter-relevant state fields and what its events contribute to the
trace observations. -/

theorem initialize_node_spec (env : Env) (st : MCPState) :
    (initialize_node env st).1.iteration = 0 ∧
    (initialize_node env st).1.max_iterations = st.max_iterations ∧
    (initialize_node env st).1.executed_tools = st.executed_tools ∧
    analyzeCt (initialize_node env st).2 = 0 ∧
    updateCt (initialize_node env st).2 = 0 ∧
    flcTotals (initialize_node env st).2 = [] ∧
    wfcTotals (initialize_node env st).2 = [] ∧
    nodeIters (initialize_node env st).2 = [] ∧
    execIters (initialize_node env st).2 = [] := by
  simp [initialize_node, analyzeCt, updateCt, flcTotals, wfcTotals, nodeIters, execIters,
    isAnalyzeVisit, isUpdateVisit, flcTotalOf, wfcTotalOf, nodeIterOf, execIterOf,
    List.countP_cons, List.countP_nil]

theorem analyze_node_spec (env : Env) (st : MCPState) :
    (analyze_and_plan_node env st).1.iteration = st.iteration + 1 ∧
    (analyze_and_plan_node env st).1.max_iterations = st.max_iterations ∧
    (analyze_and_plan_node env st).1.executed_tools = st.executed_tools ∧
    analyzeCt (analyze_and_plan_node env st).2 = 1 ∧
    updateCt (analyze_and_plan_node env st).2 = 0 ∧
    flcTotals (analyze_and_plan_node env st).2 = [] ∧
    wfcTotals (analyze_and_plan_node env st).2 = [] ∧
    nodeIters (analyze_and_plan_node env st).2 = [st.iteration + 1] ∧
    execIters (analyze_and_plan_node env st).2 = [] := by
  cases hg : env.gemini (st.iteration + 1)
      (createAnalysisPrompt { st with iteration := st.iteration + 1 }) with
  | text s =>
    simp [analyze_and_plan_node, handle_error, hg,
      analyzeCt, updateCt, flcTotals, wfcTotals, nodeIters, execIters,
      isAnalyzeVisit, isUpdateVisit, flcTotalOf, wfcTotalOf, nodeIterOf, execIterOf,
      List.countP_cons, List.countP_nil]
  | exn e =>
    simp [analyze_and_plan_node, handle_error, hg,
      analyzeCt, updateCt, flcTotals, wfcTotals, nodeIters, execIters,
      isAnalyzeVisit, isUpdateVisit, flcTotalOf, wfcTotalOf, nodeIterOf, execIterOf,
      List.countP_cons, List.countP_nil]

theorem exec_node_spec (env : Env) (st : MCPState) :
    (execute_tool_node env st).1.iteration = st.iteration ∧
    (execute_tool_node env st).1.max_iterations = st.max_iterations ∧
    analyzeCt (execute_tool_node env st).2 = 0 ∧
    updateCt (execute_tool_node env st).2 = 0 ∧
    flcTotals (execute_tool_node env st).2 = [] ∧
    wfcTotals (execute_tool_node env st).2 = [] ∧
    nodeIters (execute_tool_node env st).2 = [st.iteration] ∧
    execIters (execute_tool_node env st).2 = [st.iteration] := by
  unfold execute_tool_node execute_single_tool handle_error
  by_cases hb : (strStartsWith (env.toolResult st.iteration) "\x7b" &&
      (jsonParse (env.toolResult st.iteration)).isNone) = true <;>
  · repeat' split
    all_goals
      simp [hb, analyzeCt, updateCt, flcTotals, wfcTotals, nodeIters, execIters,
        isAnalyzeVisit, isUpdateVisit, flcTotalOf, wfcTotalOf, nodeIterOf, execIterOf,
        List.countP_cons, List.countP_nil]

theorem exec_node_executed (env : Env) (st : MCPState) :
    st.executed_tools <+: (execute_tool_node env st).1.executed_tools ∧
    (execute_tool_node env st).1.executed_tools.length ≤ st.executed_tools.length + 1 := by
  unfold execute_tool_node execute_single_tool handle_error
  by_cases hb : (strStartsWith (env.toolResult st.iteration) "\x7b" &&
      (jsonParse (env.toolResult st.iteration)).isNone) = true <;>
  · repeat' split
    all_goals simp [hb, List.prefix_append]

theorem update_node_spec (env : Env) (st : MCPState) :
    (update_context_node env st).1.iteration = st.iteration ∧
    (update_context_node env st).1.max_iterations = st.max_iterations ∧
    (update_context_node env st).1.executed_tools = st.executed_tools ∧
    analyzeCt (update_context_node env st).2 = 0 ∧
    updateCt (update_context_node env st).2 = 1 ∧
    flcTotals (update_context_node env st).2 = [] ∧
    wfcTotals (update_context_node env st).2 = [] ∧
    nodeIters (update_context_node env st).2 = [st.iteration] ∧
    execIters (update_context_node env st).2 = [] := by
  unfold update_context_node
  repeat' split
  all_goals
    simp [analyzeCt, updateCt, flcTotals, wfcTotals, nodeIters, execIters,
      isAnalyzeVisit, isUpdateVisit, flcTotalOf, wfcTotalOf, nodeIterOf, execIterOf,
      List.countP_cons, List.countP_nil]

theorem finalize_node_spec (env : Env) (st : MCPState) :
    (finalize_node env st).1.iteration = st.iteration ∧
    (finalize_node env st).1.max_iterations = st.max_iterations ∧
    (finalize_node env st).1.executed_tools = st.executed_tools ∧
    analyzeCt (finalize_node env st).2 = 0 ∧
    updateCt (finalize_node env st).2 = 0 ∧
    flcTotals (finalize_node env st).2 = [st.iteration] ∧
    wfcTotals (finalize_node env st).2 = [] ∧
    nodeIters (finalize_node env st).2 = [st.iteration] ∧
    execIters (finalize_node env st).2 = [] := by
  unfold finalize_node
  repeat' split
  all_goals
    simp [analyzeCt, updateCt, flcTotals, wfcTotals, nodeIters, execIters,
      isAnalyzeVisit, isUpdateVisit, flcTotalOf, wfcTotalOf, nodeIterOf, execIterOf,
      List.countP_cons, List.countP_nil]

theorem analyzeCt_append (l1 l2 : List Event) :
    analyzeCt (l1 ++ l2) = analyzeCt l1 + analyzeCt l2 := by
  simp [analyzeCt]

theorem updateCt_append (l1 l2 : List Event) :
    updateCt (l1 ++ l2) = updateCt l1 + updateCt l2 := by
  simp [updateCt]

theorem flcCt_append (l1 l2 : List Event) :
    flcCt (l1 ++ l2) = flcCt l1 + flcCt l2 := by
  simp [flcCt]

theorem flcTotals_append (l1 l2 : List Event) :
    flcTotals (l1 ++ l2) = flcTotals l1 ++ flcTotals l2 := by
  simp [flcTotals]

theorem wfcTotals_append (l1 l2 : List Event) :
    wfcTotals (l1 ++ l2) = wfcTotals l1 ++ wfcTotals l2 := by
  simp [wfcTotals]

theorem nodeIters_append (l1 l2 : List Event) :
    nodeIters (l1 ++ l2) = nodeIters l1 ++ nodeIters l2 := by
  simp [nodeIters]

theorem execIters_append (l1 l2 : List Event) :
    execIters (l1 ++ l2) = execIters l1 ++ execIters l2 := by
  simp [execIters]

theorem round_stop_spec (env : Env) (st st' : MCPState) (evs : List Event)
    (h : runRound env st = .stop st' evs) :
    st'.iteration = st.iteration + 1 ∧
    st'.max_iterations = st.max_iterations ∧
    analyzeCt evs = 1 ∧
    flcTotals evs = [st.iteration + 1] ∧
    wfcTotals evs = [] ∧
    (∀ x ∈ nodeIters evs, x = st.iteration + 1) ∧
    (∀ x ∈ execIters evs, x < st.max_iterations) ∧
    ((updateCt evs = 0 ∧ st'.executed_tools = st.executed_tools) ∨
     (updateCt evs = 1 ∧ st.executed_tools <+: st'.executed_tools ∧
      st'.executed_tools.length ≤ st.executed_tools.length + 1)) := by
  obtain ⟨a1, a2, a3, a4, a5, a6, a7, a8, a9⟩ := analyze_node_spec env st
  unfold runRound at h
  dsimp only at h
  split at h
  case isTrue hroute =>
    cases h
    obtain ⟨f1, f2, f3, f4, f5, f6, f7, f8, f9⟩ :=
      finalize_node_spec env (analyze_and_plan_node env st).1
    refine ⟨by rw [f1, a1], by rw [f2, a2], ?_, ?_, ?_, ?_, ?_, ?_⟩
    · rw [analyzeCt_append, a4, f4]
    · rw [flcTotals_append, a6, f6, a1]
      simp
    · rw [wfcTotals_append, a7, f7]
      simp
    · intro x hx
      rw [nodeIters_append, a8, f8] at hx
      simp only [a1] at hx
      simpa using hx
    · intro x hx
      rw [execIters_append, a9, f9] at hx
      simp at hx
    · left
      exact ⟨by rw [updateCt_append, a5, f5], by rw [f3, a3]⟩
  case isFalse hroute =>
    split at h
    case isTrue hcont => exact RoundOut.noConfusion h
    case isFalse hcont =>
      cases h
      obtain ⟨e1, e2, e4, e5, e6, e7, e8, e9⟩ :=
        exec_node_spec env (analyze_and_plan_node env st).1
      obtain ⟨x1, x2⟩ := exec_node_executed env (analyze_and_plan_node env st).1
      obtain ⟨u1, u2, u3, u4, u5, u6, u7, u8, u9⟩ :=
        update_node_spec env (execute_tool_node env (analyze_and_plan_node env st).1).1
      obtain ⟨f1, f2, f3, f4, f5, f6, f7, f8, f9⟩ :=
        finalize_node_spec env
          (update_context_node env (execute_tool_node env (analyze_and_plan_node env st).1).1).1
      have hlt : st.iteration + 1 < st.max_iterations := by
        have hne : should_execute_tool (analyze_and_plan_node env st).1 ≠ "finish" := by
          intro hcontr
          rw [hcontr] at hroute
          exact hroute (by decide)
        have := should_execute_tool_ne_finish hne
        rw [a1, a2] at this
        exact this
      refine ⟨by rw [f1, u1, e1, a1], by rw [f2, u2, e2, a2], ?_, ?_, ?_, ?_, ?_, ?_⟩
      · rw [analyzeCt_append, analyzeCt_append, analyzeCt_append, a4, e4, u4, f4]
      · rw [flcTotals_append, flcTotals_append, flcTotals_append, a6, e6, u6, f6]
        simp only [u1, e1, a1]
        simp
      · rw [wfcTotals_append, wfcTotals_append, wfcTotals_append, a7, e7, u7, f7]
        simp
      · intro x hx
        rw [nodeIters_append, nodeIters_append, nodeIters_append, a8, e8, u8, f8] at hx
        simp only [u1, e1, a1] at hx
        simpa using hx
      · intro x hx
        rw [execIters_append, execIters_append, execIters_append, a9, e9, u9, f9] at hx
        simp only [e1, a1] at hx
        simp at hx
        omega
      · right
        refine ⟨?_, ?_, ?_⟩
        · rw [updateCt_append, updateCt_append, updateCt_append, a5, e5, u5, f5]
        · rw [f3, u3, ← a3]
          exact x1
        · rw [f3, u3]
          rw [a3] at x2
          exact x2

theorem round_next_spec (env : Env) (st st' : MCPState) (evs : List Event)
    (h : runRound env st = .next st' evs) :
    st'.iteration = st.iteration + 1 ∧
    st'.max_iterations = st.max_iterations ∧
    st.iteration + 1 < st.max_iterations ∧
    analyzeCt evs = 1 ∧
    updateCt evs = 1 ∧
    flcTotals evs = [] ∧
    wfcTotals evs = [] ∧
    (∀ x ∈ nodeIters evs, x = st.iteration + 1) ∧
    (∀ x ∈ execIters evs, x < st.max_iterations) ∧
    st.executed_tools <+: st'.executed_tools ∧
    st'.executed_tools.length ≤ st.executed_tools.length + 1 ∧
    (∃ r, st'.executed_tools.getLast? = some r ∧ r.success = true) := by
  obtain ⟨a1, a2, a3, a4, a5, a6, a7, a8, a9⟩ := analyze_node_spec env st
  unfold runRound at h
  dsimp only at h
  split at h
  case isTrue hroute => exact RoundOut.noConfusion h
  case isFalse hroute =>
    split at h
    case isFalse hcont => exact RoundOut.noConfusion h
    case isTrue hcont =>
      cases h
      obtain ⟨e1, e2, e4, e5, e6, e7, e8, e9⟩ :=
        exec_node_spec env (analyze_and_plan_node env st).1
      obtain ⟨x1, x2⟩ := exec_node_executed env (analyze_and_plan_node env st).1
      obtain ⟨u1, u2, u3, u4, u5, u6, u7, u8, u9⟩ :=
        update_node_spec env (execute_tool_node env (analyze_and_plan_node env st).1).1
      obtain ⟨hc1, hc2⟩ := @should_continue_eq_continue
        (update_context_node env (execute_tool_node env (analyze_and_plan_node env st).1).1).1
        (by simpa using hcont)
      rw [u1, e1, a1, u2, e2, a2] at hc1
      refine ⟨by rw [u1, e1, a1], by rw [u2, e2, a2], hc1, ?_, ?_, ?_, ?_, ?_, ?_, ?_, ?_, ?_⟩
      · rw [analyzeCt_append, analyzeCt_append, a4, e4, u4]
      · rw [updateCt_append, updateCt_append, a5, e5, u5]
      · rw [flcTotals_append, flcTotals_append, a6, e6, u6]
        simp
      · rw [wfcTotals_append, wfcTotals_append, a7, e7, u7]
        simp
      · intro x hx
        rw [nodeIters_append, nodeIters_append, a8, e8, u8] at hx
        simp only [e1, a1] at hx
        simpa using hx
      · intro x hx
        rw [execIters_append, execIters_append, a9, e9, u9] at hx
        simp only [e1, a1] at hx
        simp at hx
        omega
      · rw [u3, ← a3]
        exact x1
      · rw [u3]
        rw [a3] at x2
        exact x2
      · exact hc2

/-! ## The graph loop -/

theorem loopGo_stop (env : Env) (fuel : Nat) {st st' : MCPState} {evs : List Event}
    (h : runRound env st = .stop st' evs) : loopGo env fuel st = (st', evs) := by
  cases fuel <;> simp [loopGo, h]

theorem loopGo_next_succ (env : Env) (fuel : Nat) {st st' : MCPState} {evs : List Event}
    (h : runRound env st = .next st' evs) :
    loopGo env (fuel + 1) st = ((loopGo env fuel st').1, evs ++ (loopGo env fuel st').2) := by
  simp [loopGo, h]

theorem chain_le_of_all_eq {l : List Nat} {c : Nat} (h : ∀ x ∈ l, x = c) :
    List.Chain' (· ≤ ·) l := by
  induction l with
  | nil => simp
  | cons a t ih =>
    rw [List.chain'_cons']
    refine ⟨?_, ih (fun x hx => h x (List.mem_cons_of_mem _ hx))⟩
    intro y hy
    have hya := h y (List.mem_cons_of_mem _ (List.mem_of_mem_head? hy))
    have haa := h a (List.mem_cons_self _ _)
    omega

/-- The shared case of `loopGo_spec` where the first round already stops. -/
theorem loopGo_spec_stop (env : Env) (fuel : Nat) (st st' : MCPState) (evs : List Event)
    (hr : runRound env st = .stop st' evs) :
    (loopGo env fuel st).1.max_iterations = st.max_iterations ∧
    (loopGo env fuel st).1.iteration = st.iteration + analyzeCt (loopGo env fuel st).2 ∧
    (st.iteration < st.max_iterations → (loopGo env fuel st).1.iteration ≤ st.max_iterations) ∧
    flcTotals (loopGo env fuel st).2 = [(loopGo env fuel st).1.iteration] ∧
    wfcTotals (loopGo env fuel st).2 = [] ∧
    st.executed_tools <+: (loopGo env fuel st).1.executed_tools ∧
    (∀ x ∈ nodeIters (loopGo env fuel st).2, st.iteration + 1 ≤ x) ∧
    List.Chain' (· ≤ ·) (nodeIters (loopGo env fuel st).2) ∧
    (∀ x ∈ execIters (loopGo env fuel st).2, x < st.max_iterations) := by
  rw [loopGo_stop env fuel hr]
  dsimp only
  obtain ⟨r1, r2, r3, r4, r5, r6, r7, r8⟩ := round_stop_spec env st st' evs hr
  refine ⟨r2, by rw [r1, r3], by omega, by rw [r4, r1], r5, ?_, ?_, ?_, ?_⟩
  · rcases r8 with ⟨-, he⟩ | ⟨-, hp, -⟩
    · rw [he]
    · exact hp
  · intro x hx
    rw [r6 x hx]
  · exact chain_le_of_all_eq r6
  · exact r7

theorem loopGo_spec (env : Env) :
    ∀ (fuel : Nat) (st : MCPState), st.max_iterations - st.iteration ≤ fuel →
    (loopGo env fuel st).1.max_iterations = st.max_iterations ∧
    (loopGo env fuel st).1.iteration = st.iteration + analyzeCt (loopGo env fuel st).2 ∧
    (st.iteration < st.max_iterations → (loopGo env fuel st).1.iteration ≤ st.max_iterations) ∧
    flcTotals (loopGo env fuel st).2 = [(loopGo env fuel st).1.iteration] ∧
    wfcTotals (loopGo env fuel st).2 = [] ∧
    st.executed_tools <+: (loopGo env fuel st).1.executed_tools ∧
    (∀ x ∈ nodeIters (loopGo env fuel st).2, st.iteration + 1 ≤ x) ∧
    List.Chain' (· ≤ ·) (nodeIters (loopGo env fuel st).2) ∧
    (∀ x ∈ execIters (loopGo env fuel st).2, x < st.max_iterations) := by
  intro fuel
  induction fuel with
  | zero =>
    intro st hfuel
    cases hr : runRound env st with
    | stop st' evs => exact loopGo_spec_stop env 0 st st' evs hr
    | next st' evs =>
      obtain ⟨n1, n2, n3, -⟩ := round_next_spec env st st' evs hr
      exfalso
      omega
  | succ fuel ih =>
    intro st hfuel
    cases hr : runRound env st with
    | stop st' evs => exact loopGo_spec_stop env (fuel + 1) st st' evs hr
    | next st' evs =>
      rw [loopGo_next_succ env fuel hr]
      dsimp only
      obtain ⟨n1, n2, n3, n4, n5, n6, n7, n8, n9, n10, n11, n12⟩ :=
        round_next_spec env st st' evs hr
      have hfuel' : st'.max_iterations - st'.iteration ≤ fuel := by omega
      obtain ⟨i1, i2, i3, i4, i5, i6, i7, i8, i9⟩ := ih st' hfuel'
      refine ⟨?_, ?_, ?_, ?_, ?_, ?_, ?_, ?_, ?_⟩
      · rw [i1, n2]
      · rw [analyzeCt_append, n4, i2, n1]
        omega
      · intro hlt
        have h3 := i3 (by omega)
        omega
      · rw [flcTotals_append, n6, i4]
        simp
      · rw [wfcTotals_append, n7, i5]
        simp
      · exact n10.trans i6
      · intro x hx
        rw [nodeIters_append] at hx
        rcases List.mem_append.mp hx with hx | hx
        · rw [n8 x hx]
        · have := i7 x hx
          omega
      · rw [nodeIters_append]
        rw [List.chain'_append]
        refine ⟨chain_le_of_all_eq n8, i8, ?_⟩
        intro a ha b hb
        have ha' := n8 a (List.mem_of_mem_getLast? ha)
        have hb' := i7 b (List.mem_of_mem_head? hb)
        omega
      · intro x hx
        rw [execIters_append] at hx
        rcases List.mem_append.mp hx with hx | hx
        · exact n9 x hx
        · have := i9 x hx
          omega

/-! ## Top-level run decomposition -/

theorem flcCt_eq_totals_length (l : List Event) : flcCt l = (flcTotals l).length := by
  unfold flcCt flcTotals
  induction l with
  | nil => rfl
  | cons e t ih =>
    cases e <;> simp [isFlc, flcTotalOf, List.countP_cons, ih]

/-- The final state and the trace observations of `execute_feedback_loop`
reduce to those of the inner loop (the surrounding events carry no node
visits and no `feedback_loop_complete`; exactly one
`langgraph_workflow_complete` is appended). -/
theorem top_obs (env : Env) (request : String) (N : Nat) :
    (execute_feedback_loop env request N).1 =
      (loopGo env N (initialize_node env (initialState env request N)).1).1 ∧
    analyzeCt (execute_feedback_loop env request N).2 =
      analyzeCt (loopGo env N (initialize_node env (initialState env request N)).1).2 ∧
    updateCt (execute_feedback_loop env request N).2 =
      updateCt (loopGo env N (initialize_node env (initialState env request N)).1).2 ∧
    flcTotals (execute_feedback_loop env request N).2 =
      flcTotals (loopGo env N (initialize_node env (initialState env request N)).1).2 ∧
    wfcTotals (execute_feedback_loop env request N).2 =
      wfcTotals (loopGo env N (initialize_node env (initialState env request N)).1).2 ++
        [(loopGo env N (initialize_node env (initialState env request N)).1).1.iteration] ∧
    nodeIters (execute_feedback_loop env request N).2 =
      nodeIters (loopGo env N (initialize_node env (initialState env request N)).1).2 ∧
    execIters (execute_feedback_loop env request N).2 =
      execIters (loopGo env N (initialize_node env (initialState env request N)).1).2 := by
  obtain ⟨I1, I2, I3, I4, I5, I6, I7, I8, I9⟩ :=
    initialize_node_spec env (initialState env request N)
  have I4' : List.countP isAnalyzeVisit
      (initialize_node env (initialState env request N)).2 = 0 := I4
  have I5' : List.countP isUpdateVisit
      (initialize_node env (initialState env request N)).2 = 0 := I5
  have I6' : List.filterMap flcTotalOf
      (initialize_node env (initialState env request N)).2 = [] := I6
  have I7' : List.filterMap wfcTotalOf
      (initialize_node env (initialState env request N)).2 = [] := I7
  have I8' : List.filterMap nodeIterOf
      (initialize_node env (initialState env request N)).2 = [] := I8
  have I9' : List.filterMap execIterOf
      (initialize_node env (initialState env request N)).2 = [] := I9
  unfold execute_feedback_loop
  dsimp only
  refine ⟨rfl, ?_, ?_, ?_, ?_, ?_, ?_⟩ <;>
    simp [analyzeCt, updateCt, flcTotals, wfcTotals, nodeIters, execIters,
      isAnalyzeVisit, isUpdateVisit, flcTotalOf, wfcTotalOf, nodeIterOf, execIterOf,
      List.countP_cons, I4', I5', I6', I7', I8', I9']

theorem init_state_facts (env : Env) (request : String) (N : Nat) :
    (initialize_node env (initialState env request N)).1.iteration = 0 ∧
    (initialize_node env (initialState env request N)).1.max_iterations = N ∧
    (initialize_node env (initialState env request N)).1.executed_tools = [] := by
  obtain ⟨I1, I2, I3, -⟩ := initialize_node_spec env (initialState env request N)
  exact ⟨I1, by rw [I2]; rfl, by rw [I3]; rfl⟩

/-! ## Claim theorems -/

/-- C1: for every run started with `max_iterations = N` (`N ≥ 1`), the
`analyze_and_plan` node is visited at most `N` times, and the
`total_iterations` reported by both completion events
(`feedback_loop_complete` and `langgraph_workflow_complete`) equals the
number of `analyze_and_plan` visits, the counter being incremented once
per visit starting from 0. -/
theorem analyze_visits_bounded_and_reported (env : Env) (request : String) (N : Nat)
    (hN : 1 ≤ N) :
    analyzeCt (execute_feedback_loop env request N).2 ≤ N ∧
    (execute_feedback_loop env request N).1.iteration =
      analyzeCt (execute_feedback_loop env request N).2 ∧
    flcTotals (execute_feedback_loop env request N).2 =
      [analyzeCt (execute_feedback_loop env request N).2] ∧
    wfcTotals (execute_feedback_loop env request N).2 =
      [analyzeCt (execute_feedback_loop env request N).2] := by
  obtain ⟨F1, F2, F3⟩ := init_state_facts env request N
  have hadq : (initialize_node env (initialState env request N)).1.max_iterations -
      (initialize_node env (initialState env request N)).1.iteration ≤ N := by
    rw [F1, F2]
    omega
  obtain ⟨L1, L2, L3, L4, L5, L6, L7, L8, L9⟩ := loopGo_spec env N _ hadq
  obtain ⟨T1, T2, T3, T4, T5, T6, T7⟩ := top_obs env request N
  rw [F1] at L2
  have hbound := L3 (by rw [F1, F2]; omega)
  rw [F2] at hbound
  refine ⟨?_, ?_, ?_, ?_⟩
  · rw [T2]
    omega
  · rw [T1, T2]
    omega
  · rw [T4, T2, L4]
    simp only [List.cons.injEq, and_true]
    omega
  · rw [T5, T2, L5]
    simp
    omega

/-- C2: in every run whose first tool execution is recorded with
`success = false`, that record stays the only one, `update_context` is
visited exactly once, `analyze_and_plan` is never visited again (one
visit in total), and exactly one `feedback_loop_complete` event is
emitted. -/
theorem first_failed_execution_ends_run (env : Env) (request : String) (N : Nat)
    (r : ExecRecord) (rs : List ExecRecord)
    (hexec : (execute_feedback_loop env request N).1.executed_tools = r :: rs)
    (hfail : r.success = false) :
    rs = [] ∧
    updateCt (execute_feedback_loop env request N).2 = 1 ∧
    analyzeCt (execute_feedback_loop env request N).2 = 1 ∧
    flcCt (execute_feedback_loop env request N).2 = 1 := by
  obtain ⟨F1, F2, F3⟩ := init_state_facts env request N
  obtain ⟨T1, T2, T3, T4, T5, T6, T7⟩ := top_obs env request N
  cases hr : runRound env (initialize_node env (initialState env request N)).1 with
  | stop st' evs =>
    have hloop := loopGo_stop env N hr
    obtain ⟨r1, r2, r3, r4, r5, r6, r7, r8⟩ := round_stop_spec env _ st' evs hr
    rw [T1, hloop] at hexec
    dsimp only at hexec
    rcases r8 with ⟨hu0, heq⟩ | ⟨hu1, hpre, hlen⟩
    · rw [heq, F3] at hexec
      exact absurd hexec (by simp)
    · rw [F3] at hlen
      have hrs : rs = [] := by
        rw [hexec] at hlen
        simpa using hlen
      refine ⟨hrs, ?_, ?_, ?_⟩
      · rw [T3, hloop]
        exact hu1
      · rw [T2, hloop]
        exact r3
      · rw [flcCt_eq_totals_length, T4, hloop]
        dsimp only
        rw [r4]
        rfl
  | next st' evs =>
    obtain ⟨n1, n2, n3, n4, n5, n6, n7, n8, n9, n10, n11, n12⟩ :=
      round_next_spec env _ st' evs hr
    have hN2 : 2 ≤ N := by
      rw [F1, F2] at n3
      omega
    obtain ⟨fuel, rfl⟩ : ∃ f, N = f + 1 := ⟨N - 1, by omega⟩
    have hloop := loopGo_next_succ env fuel hr
    rw [F3] at n10 n11
    obtain ⟨r2, hg, hsucc⟩ := n12
    have hst' : st'.executed_tools = [r2] :=
      length_le_one_getLast (by simpa using n11) hg
    have hadq2 : st'.max_iterations - st'.iteration ≤ fuel := by
      rw [n1, n2, F1, F2]
      omega
    obtain ⟨L1, L2, L3, L4, L5, L6, L7, L8, L9⟩ := loopGo_spec env fuel st' hadq2
    rw [hst'] at L6
    obtain ⟨tail, htail⟩ := L6
    rw [T1, hloop] at hexec
    dsimp only at hexec
    rw [← htail] at hexec
    simp only [List.cons_append, List.nil_append, List.cons.injEq] at hexec
    obtain ⟨hr2, -⟩ := hexec
    rw [hr2, hfail] at hsucc
    exact absurd hsucc (by decide)

/-- C9: across one run, the iteration values carried by successive
`workflow_node` events never decrease, and every entry to `execute_tool`
happens with the iteration counter within the `max_iterations` budget. -/
theorem iteration_monotone_and_budgeted (env : Env) (request : String) (N : Nat) :
    List.Chain' (· ≤ ·) (nodeIters (execute_feedback_loop env request N).2) ∧
    (execIters (execute_feedback_loop env request N).2).all (· ≤ N) = true := by
  obtain ⟨F1, F2, F3⟩ := init_state_facts env request N
  have hadq : (initialize_node env (initialState env request N)).1.max_iterations -
      (initialize_node env (initialState env request N)).1.iteration ≤ N := by
    rw [F1, F2]
    omega
  obtain ⟨L1, L2, L3, L4, L5, L6, L7, L8, L9⟩ := loopGo_spec env N _ hadq
  obtain ⟨T1, T2, T3, T4, T5, T6, T7⟩ := top_obs env request N
  constructor
  · rw [T6]
    exact L8
  · rw [T7, List.all_eq_true]
    intro x hx
    have hlt := L9 x hx
    rw [F2] at hlt
    exact decide_eq_true (by omega)

/-- C3 counterexample: in the `envSkip` run the second `execute_tool`
visit performs no execution (two `execute_tool` visits, one executed-tool
record), yet `analyze_and_plan` is visited a third time afterwards: the
routing after the `update_context` visit that follows the skipped call is
`continue`, not `finish`, because the most recent record (from iteration
1) was successful.  This refutes the claim that a skipped tool call ends
the run regardless of earlier successful executions. -/
theorem skipped_call_after_success_continues_cex :
    analyzeCt (execute_feedback_loop envSkip "list all stores" 5).2 = 3 ∧
    execCt (execute_feedback_loop envSkip "list all stores" 5).2 = 2 ∧
    (execute_feedback_loop envSkip "list all stores" 5).1.executed_tools.length = 1 :=
  ⟨rfl, rfl, rfl⟩

/-- C3 (amended): an `execute_tool` visit that extracts no tool call
passes the state through unchanged, and the routing decision after the
following `update_context` visit is `finish` exactly when the iteration
budget is exhausted, the executed-tool log is empty, or the most recent
record is a failure; with a successful most recent record and budget
remaining the run continues. -/
theorem skipped_call_routing (env : Env) (st : MCPState)
    (hx : extract_tool_call (lastMessageContent st) = none) :
    (execute_tool_node env st).1 = st ∧
    (should_continue (update_context_node env (execute_tool_node env st).1).1 = "finish" ↔
      (st.max_iterations ≤ st.iteration ∨ st.executed_tools = [] ∨
       ∃ r, st.executed_tools.getLast? = some r ∧ r.success = false)) := by
  have hnoop : (execute_tool_node env st).1 = st := by
    simp [execute_tool_node, hx]
  refine ⟨hnoop, ?_⟩
  rw [hnoop]
  obtain ⟨u1, u2, u3, -⟩ := update_node_spec env st
  have hcong : should_continue (update_context_node env st).1 = should_continue st := by
    unfold should_continue
    rw [u1, u2, u3]
  rw [hcong]
  unfold should_continue
  by_cases hm : st.max_iterations ≤ st.iteration
  · rw [if_pos hm]
    simp [hm]
  · rw [if_neg hm]
    cases hg : st.executed_tools.getLast? with
    | none =>
      have hemp : st.executed_tools = [] := List.getLast?_eq_none_iff.mp hg
      simp [hm, hemp]
    | some r0 =>
      dsimp only
      have hne : st.executed_tools ≠ [] := by
        intro hcontr
        rw [hcontr] at hg
        simp at hg
      by_cases hs : r0.success
      · rw [if_pos hs]
        constructor
        · intro hcontr
          exact absurd hcontr (by decide)
        · intro hdisj
          rcases hdisj with h | h | ⟨r1, hr1, hs1⟩
          · exact absurd h hm
          · exact absurd h hne
          · injection hr1 with he
            rw [← he] at hs1
            rw [hs1] at hs
            exact absurd hs (by decide)
      · rw [if_neg hs]
        constructor
        · intro _
          exact Or.inr (Or.inr ⟨r0, rfl, by simpa using hs⟩)
        · intro _
          rfl

/-- C3 amended witness at a concrete mid-run state. -/
theorem skipped_call_routing_witness :
    extract_tool_call (lastMessageContent stBase) = none ∧
    ((execute_tool_node envSkip stBase).1 = stBase ∧
     (should_continue (update_context_node envSkip (execute_tool_node envSkip stBase).1).1 = "finish" ↔
       (stBase.max_iterations ≤ stBase.iteration ∨ stBase.executed_tools = [] ∨
        ∃ r, stBase.executed_tools.getLast? = some r ∧ r.success = false))) :=
  ⟨rfl, skipped_call_routing envSkip stBase rfl⟩

/-- C4: `_extract_tool_call` never raises (its embedding is a total
`Option`-valued function); a text containing the line
`EXECUTE: get_all_stores(JSON-empty-object)` yields the call with empty
arguments; an `EXECUTE` line missing its closing parenthesis yields
`None`; an `EXECUTE` line whose argument payload is not valid JSON
yields a call with empty arguments. -/
theorem extract_tool_call_behaviour :
    extract_tool_call
        "I will list the stores.\nEXECUTE: get_all_stores(\x7b\x7d)\nThat is all." =
      some { tool_name := "get_all_stores", arguments := Json.obj [] } ∧
    extract_tool_call "EXECUTE: create_store(\x7b\x22name\x22: \x22x\x22\x7d" = none ∧
    extract_tool_call "EXECUTE: create_store(not json)" =
      some { tool_name := "create_store", arguments := Json.obj [] } :=
  ⟨rfl, rfl, rfl⟩

/-- C5: when `send_request` reads no line from the subprocess (closed
stream), or the line is not valid JSON, or the parsed response carries a
top-level `error` field, the call fails, the process handle is cleared,
and the next `_ensure_server_running` spawns a fresh subprocess. -/
theorem send_request_failure_clears_handle (env env2 : GatewayEnv) (st : MCPClientState)
    (hbad : env.readOut = ReadOut.closed ∨
      (∃ s, env.readOut = ReadOut.line s ∧ jsonParse (pyStrip s) = none) ∨
      (∃ s kvs, env.readOut = ReadOut.line s ∧
        jsonParse (pyStrip s) = some (Json.obj kvs) ∧
        (pyDictGet kvs "error").isSome = true)) :
    (∃ e, (send_request env st).1 = Except.error e) ∧
    (send_request env st).2.process = none ∧
    (ensure_server_running env2 (send_request env st).2).process =
      some { pid := env2.freshPid, returncode := none } := by
  unfold send_request
  dsimp only
  rcases hbad with hb | ⟨s, hb, hj⟩ | ⟨s, kvs, hb, hj, he⟩ <;>
    rw [hb] <;>
    by_cases hw : env.writeOk <;>
    simp_all [ensure_server_running]

/-- C5 witness: a closed output stream. -/
theorem send_request_failure_clears_handle_witness :
    (envGwClosed.readOut = ReadOut.closed ∨
      (∃ s, envGwClosed.readOut = ReadOut.line s ∧ jsonParse (pyStrip s) = none) ∨
      (∃ s kvs, envGwClosed.readOut = ReadOut.line s ∧
        jsonParse (pyStrip s) = some (Json.obj kvs) ∧
        (pyDictGet kvs "error").isSome = true)) ∧
    ((∃ e, (send_request envGwClosed gwStRunning).1 = Except.error e) ∧
     (send_request envGwClosed gwStRunning).2.process = none ∧
     (ensure_server_running envGwClosed (send_request envGwClosed gwStRunning).2).process =
       some { pid := envGwClosed.freshPid, returncode := none }) :=
  ⟨Or.inl rfl,
   send_request_failure_clears_handle envGwClosed envGwClosed gwStRunning (Or.inl rfl)⟩

/-- C6: when the `tools/call` result for one collection carries an
unparsable JSON payload, that collection keeps its prior (skeleton) value
and count, `context_loaded` is still `true`, and the remaining
collections are processed exactly as they would be without the bad
payload. -/
theorem full_context_tolerates_bad_payload (r1 r3 : Json) (t : String)
    (hbad : jsonParse t = none) :
    (get_full_system_context (fun k => match k with
      | .stores => r1
      | .main_stores => Json.obj [("content", Json.arr [Json.obj [("text", Json.str t)]])]
      | .orders => r3)).main_stores = Json.arr [] ∧
    (get_full_system_context (fun k => match k with
      | .stores => r1
      | .main_stores => Json.obj [("content", Json.arr [Json.obj [("text", Json.str t)]])]
      | .orders => r3)).count_main_stores = 0 ∧
    (get_full_system_context (fun k => match k with
      | .stores => r1
      | .main_stores => Json.obj [("content", Json.arr [Json.obj [("text", Json.str t)]])]
      | .orders => r3)).context_loaded = true ∧
    get_full_system_context (fun k => match k with
      | .stores => r1
      | .main_stores => Json.obj [("content", Json.arr [Json.obj [("text", Json.str t)]])]
      | .orders => r3) =
    get_full_system_context (fun k => match k with
      | .stores => r1
      | .main_stores => Json.obj []
      | .orders => r3) := by
  have hskip : loadCollection
      (Json.obj [("content", Json.arr [Json.obj [("text", Json.str t)]])])
      CKey.main_stores = CollStep.skip := by
    simp [loadCollection, pyDictGet, pyTruthy, hbad]
  have hskip2 : loadCollection (Json.obj []) CKey.main_stores = CollStep.skip := rfl
  refine ⟨?_, ?_, ?_, ?_⟩ <;>
  · cases hl1 : loadCollection r1 CKey.stores <;>
      cases hl3 : loadCollection r3 CKey.orders <;>
      simp [get_full_system_context, get_system_context, processCollections,
        hskip, hskip2, hl1, hl3, setColl]

/-- C6 witness: a payload that is not JSON. -/
theorem full_context_tolerates_bad_payload_witness :
    jsonParse "not json" = none ∧
    ((get_full_system_context (fun k => match k with
      | .stores => Json.obj []
      | .main_stores =>
          Json.obj [("content", Json.arr [Json.obj [("text", Json.str "not json")]])]
      | .orders => Json.obj [])).main_stores = Json.arr [] ∧
     (get_full_system_context (fun k => match k with
      | .stores => Json.obj []
      | .main_stores =>
          Json.obj [("content", Json.arr [Json.obj [("text", Json.str "not json")]])]
      | .orders => Json.obj [])).count_main_stores = 0 ∧
     (get_full_system_context (fun k => match k with
      | .stores => Json.obj []
      | .main_stores =>
          Json.obj [("content", Json.arr [Json.obj [("text", Json.str "not json")]])]
      | .orders => Json.obj [])).context_loaded = true ∧
     get_full_system_context (fun k => match k with
      | .stores => Json.obj []
      | .main_stores =>
          Json.obj [("content", Json.arr [Json.obj [("text", Json.str "not json")]])]
      | .orders => Json.obj []) =
     get_full_system_context (fun k => match k with
      | .stores => Json.obj []
      | .main_stores => Json.obj []
      | .orders => Json.obj [])) :=
  ⟨rfl, full_context_tolerates_bad_payload (Json.obj []) (Json.obj []) "not json" rfl⟩

/-- C7: a tool execution that invokes a discovered tool stores a record
whose success flag is false exactly when the lowercased result text
contains the substring "error" (so a successful result mentioning
"error" is classified as a failure), and the `successful_tools` count the
finalize node reports is the number of records whose flag is true. -/
theorem tool_success_flag_is_error_substring (env : Env) (st : MCPState) (tc : ToolCall)
    (kvs : List (String × Json))
    (hfound : (env.tools.find? (fun t => t.name == tc.tool_name)).isSome = true)
    (hargs : tc.arguments = Json.obj kvs) :
    (∃ rec1, (execute_single_tool env st tc).1.executed_tools =
        st.executed_tools ++ [rec1] ∧
      rec1.result = env.toolResult st.iteration ∧
      (rec1.success = false ↔ containsSub (lowerStr rec1.result) "error" = true)) ∧
    flcSuccs (finalize_node env (execute_single_tool env st tc).1).2 =
      [succCount (execute_single_tool env st tc).1.executed_tools] := by
  obtain ⟨tool, htool⟩ := Option.isSome_iff_exists.mp hfound
  have hexec : ∃ rec1, (execute_single_tool env st tc).1.executed_tools =
      st.executed_tools ++ [rec1] ∧
      rec1.result = env.toolResult st.iteration ∧
      (rec1.success = false ↔ containsSub (lowerStr rec1.result) "error" = true) := by
    unfold execute_single_tool handle_error
    rw [htool, hargs]
    by_cases hb : (strStartsWith (env.toolResult st.iteration) "\x7b" &&
        (jsonParse (env.toolResult st.iteration)).isNone) = true <;>
      simp [hb]
  refine ⟨hexec, ?_⟩
  unfold finalize_node
  cases hs : env.summaryOut (summaryPrompt (execute_single_tool env st tc).1) <;>
    simp [flcSuccs, flcSuccOf]

/-- C7 witness: a successful result whose text mentions "Error". -/
theorem tool_success_flag_is_error_substring_witness :
    (envErrText.tools.find? (fun t => t.name == tcSample.tool_name)).isSome = true ∧
    tcSample.arguments = Json.obj [] ∧
    ((∃ rec1, (execute_single_tool envErrText stBase tcSample).1.executed_tools =
        stBase.executed_tools ++ [rec1] ∧
      rec1.result = envErrText.toolResult stBase.iteration ∧
      (rec1.success = false ↔ containsSub (lowerStr rec1.result) "error" = true)) ∧
     flcSuccs (finalize_node envErrText (execute_single_tool envErrText stBase tcSample).1).2 =
      [succCount (execute_single_tool envErrText stBase tcSample).1.executed_tools]) :=
  ⟨rfl, rfl,
   tool_success_flag_is_error_substring envErrText stBase tcSample [] rfl rfl⟩

theorem joinNL_mem_split {parts : List String} {x : String} (hx : x ∈ parts) :
    ∃ pre post, joinNL parts = pre ++ x ++ post := by
  induction parts with
  | nil => simp at hx
  | cons a rest ih =>
    rcases List.mem_cons.mp hx with rfl | hmem
    · cases rest with
      | nil =>
        exact ⟨"", "", by simp [joinNL, String.append_empty, String.empty_append]⟩
      | cons b r =>
        exact ⟨"", "\n" ++ joinNL (b :: r),
          by simp [joinNL, String.empty_append, String.append_assoc]⟩
    · cases rest with
      | nil => simp at hmem
      | cons b r =>
        obtain ⟨pre, post, hsplit⟩ := ih hmem
        refine ⟨a ++ "\n" ++ pre, post, ?_⟩
        simp only [joinNL, hsplit, String.append_assoc]

/-- C8: when more than 3 executed-tool records exist, the analysis prompt
contains the rendering of exactly the last 3 records of the log: a length
3 slice that is a contiguous suffix of the log, preserving the original
chronological order. -/
theorem analysis_prompt_last_three (st : MCPState)
    (hlen : 3 < st.executed_tools.length) :
    (st.executed_tools.drop (st.executed_tools.length - 3)).length = 3 ∧
    st.executed_tools.take (st.executed_tools.length - 3) ++
      st.executed_tools.drop (st.executed_tools.length - 3) = st.executed_tools ∧
    ∃ pre post, createAnalysisPrompt st =
      pre ++ dumpRecords (st.executed_tools.drop (st.executed_tools.length - 3)) ++ post := by
  have hne : st.executed_tools.isEmpty = false := by
    cases hl : st.executed_tools with
    | nil => rw [hl] at hlen; simp at hlen
    | cons a tl => simp [hl]
  refine ⟨?_, List.take_append_drop _ _, ?_⟩
  · rw [List.length_drop]
    omega
  · apply joinNL_mem_split
    unfold createAnalysisPrompt at *
    unfold createAnalysisPromptParts
    have hxD : dumpRecords (st.executed_tools.drop (st.executed_tools.length - 3)) ∈
        (if st.executed_tools.isEmpty then ([] : List String) else
          ["PREVIOUSLY EXECUTED TOOLS:",
           dumpRecords (st.executed_tools.drop (st.executed_tools.length - 3)), ""]) := by
      rw [if_neg (by simp [hne])]
      simp
    exact List.mem_append_left _ (List.mem_append_right _ hxD)

/-- C8 witness: a log of four records. -/
theorem analysis_prompt_last_three_witness :
    3 < stFour.executed_tools.length ∧
    ((stFour.executed_tools.drop (stFour.executed_tools.length - 3)).length = 3 ∧
     stFour.executed_tools.take (stFour.executed_tools.length - 3) ++
       stFour.executed_tools.drop (stFour.executed_tools.length - 3) = stFour.executed_tools ∧
     ∃ pre post, createAnalysisPrompt stFour =
       pre ++ dumpRecords (stFour.executed_tools.drop (stFour.executed_tools.length - 3)) ++ post) :=
  ⟨by decide, analysis_prompt_last_three stFour (by decide)⟩

/-- C10: a `start_feedback_loop` command whose request string is missing
or empty yields an error event "Request is required" and the command loop
continues without creating an executor or starting a run. -/
theorem ws_missing_request_rejected (kvs : List (String × Json))
    (haction : wsActionIs kvs "start_feedback_loop" = true)
    (hreq : pyDictGet kvs "request" = none ∨
      pyDictGet kvs "request" = some (Json.str "")) :
    wsHandleCommand (Json.obj kvs) = WsOutcome.errorContinue "Request is required" := by
  unfold wsHandleCommand
  dsimp only
  rw [if_pos haction]
  rcases hreq with h | h <;> simp [h, pyTruthy]

/-- C10 witness: a command with no `request` key. -/
theorem ws_missing_request_rejected_witness :
    wsActionIs [("action", Json.str "start_feedback_loop")] "start_feedback_loop" = true ∧
    pyDictGet [("action", Json.str "start_feedback_loop")] "request" = none ∧
    wsHandleCommand (Json.obj [("action", Json.str "start_feedback_loop")]) =
      WsOutcome.errorContinue "Request is required" :=
  ⟨rfl, rfl, ws_missing_request_rejected _ rfl (Or.inl rfl)⟩

/-- C1 witness: a one-iteration run. -/
theorem analyze_visits_bounded_and_reported_witness :
    1 ≤ 1 ∧
    (analyzeCt (execute_feedback_loop envFail "list stores" 1).2 ≤ 1 ∧
     (execute_feedback_loop envFail "list stores" 1).1.iteration =
       analyzeCt (execute_feedback_loop envFail "list stores" 1).2 ∧
     flcTotals (execute_feedback_loop envFail "list stores" 1).2 =
       [analyzeCt (execute_feedback_loop envFail "list stores" 1).2] ∧
     wfcTotals (execute_feedback_loop envFail "list stores" 1).2 =
       [analyzeCt (execute_feedback_loop envFail "list stores" 1).2]) :=
  ⟨by decide, analyze_visits_bounded_and_reported envFail "list stores" 1 (by decide)⟩

/-- C2 witness: the `envFail` run, whose only execution fails. -/
theorem first_failed_execution_ends_run_witness :
    (execute_feedback_loop envFail "list stores" 5).1.executed_tools = recFail :: [] ∧
    recFail.success = false ∧
    (([] : List ExecRecord) = [] ∧
     updateCt (execute_feedback_loop envFail "list stores" 5).2 = 1 ∧
     analyzeCt (execute_feedback_loop envFail "list stores" 5).2 = 1 ∧
     flcCt (execute_feedback_loop envFail "list stores" 5).2 = 1) :=
  ⟨rfl, rfl,
   first_failed_execution_ends_run envFail "list stores" 5 recFail [] rfl rfl⟩

end Sparkathon
